import Mathlib

/-!
Shallow embedding of the assistant streaming client
(`svelte/use-assistant.ts` with tool-call support) and of the producer
session (`assistant-response.ts`), together with theorems settling the
specification claims about them.

Machine-level conventions of the embedding:
* JavaScript exceptions are modelled by the type `JsExn`; every value a
  `throw` can produce in this code is an `Error`/`TypeError` instance or a
  thrown primitive, none of which carries a `set` method.
* Asynchronous control flow is sequentialised: `await e` either yields a
  value or propagates an exception, modelled by returning
  `ConvState × Option JsExn` (the state reached so far, and the exception
  escaping the call, if any).
* The recursive round-trip cycle (`submitToolOutput` re-entering
  `handleIncomingResponse`) is made total with a fuel parameter bounding
  the recursion depth; fuel exhaustion surfaces as a modelling exception.
-/

/-- Status of the assistant conversation (`AssistantStatus` in the source). -/
inductive AssistantStatus where
  | in_progress
  | awaiting_message
deriving DecidableEq, Repr

/-- A JavaScript exception value. None of these carries a `set` method. -/
inductive JsExn where
  | jsError (message : String)
  | typeError (message : String)
  | rawValue (text : String)
deriving DecidableEq, Repr

/-- Models `(error as any).message ?? String(error)`: `Error` and
`TypeError` instances expose their `message` property; a thrown primitive
falls through to its string coercion. -/
def errMessageText : JsExn → String
  | JsExn.jsError m => m
  | JsExn.typeError m => m
  | JsExn.rawValue t => t

/-- Opaque JSON payload attached to messages (`data` fields). -/
inductive JsData where
  | record (entries : List (String × String))
  | opaqueJson (text : String)
deriving DecidableEq, Repr

/-- One content block of an assistant message: `{ text: { value } }`. -/
structure ContentBlock where
  textValue : String
deriving DecidableEq, Repr

/-- Payload of an `assistant_message` stream part. -/
structure AssistantMessageValue where
  id : String
  role : String
  content : List ContentBlock
deriving DecidableEq, Repr

/-- Payload of a `data_message` stream part. -/
structure DataMessageValue where
  id : Option String
  data : JsData
deriving DecidableEq, Repr

/-- The function requested by a tool call: `{ name, arguments }`. -/
structure ToolCallFn where
  name : String
  arguments : String
deriving DecidableEq, Repr

/-- One tool call: `{ id, function }`. -/
structure ToolCall where
  id : String
  function : ToolCallFn
deriving DecidableEq, Repr

/-- Payload of a `tool_calls` stream part. -/
structure ToolCallsValue where
  tool_calls : List ToolCall
deriving DecidableEq, Repr

/-- Payload of an `assistant_control_data` stream part. -/
structure ControlDataValue where
  threadId : String
  messageId : String
deriving DecidableEq, Repr

/-- A decoded stream part (`StreamPart` tagged union). -/
inductive StreamPart where
  | assistantMessage (v : AssistantMessageValue)
  | dataMessage (v : DataMessageValue)
  | toolCalls (v : ToolCallsValue)
  | controlData (v : ControlDataValue)
  | error (v : String)
deriving DecidableEq, Repr

/-- One entry of the conversation history (`Message`). -/
structure Message where
  id : String
  role : String
  content : String
  data : Option JsData := none
  tool_calls : Option (List ToolCall) := none
deriving DecidableEq, Repr

/-- One collected tool output: `{ tool_call_id, output }`. -/
structure ToolCallOutput where
  tool_call_id : String
  output : String
deriving DecidableEq, Repr

/-- A request body sent by `fetch` (only the fields this client sets). -/
structure FetchRequest where
  threadId : Option String
  message : Option String
  content : Option (List ToolCallOutput)
  data : Option (List (String × String))
  role : String
deriving DecidableEq, Repr

/-- The value held by the `error` store when defined: a string (set by the
code's own template strings and by `error` stream parts) or a recorded
exception object. -/
inductive ErrVal where
  | str (s : String)
  | exn (e : JsExn)
deriving DecidableEq, Repr

/-- The observable state of one conversation: the reactive stores
(`messages`, `threadId`, `status`, `error`, `input`) plus a log of the
fetch requests issued so far and a counter for `nanoid` draws. -/
structure ConvState where
  messages : List Message
  threadId : Option String
  status : AssistantStatus
  error : Option ErrVal := none
  input : String
  requests : List FetchRequest := []
  rng : Nat := 0
deriving DecidableEq, Repr

/-- Models `Array.prototype.join(sep)` on a list of strings. -/
def joinWith (sep : String) : List String → String
  | [] => ""
  | [n] => n
  | n :: rest => n ++ sep ++ joinWith sep rest

/-- The error text recorded when a `tool_calls` part arrives and no
`onToolCall` handler is configured (the template string in the source). -/
def unhandledToolCallsText (calls : List ToolCall) : String :=
  "onToolCall is not defined for this assistant. Tool call names invoked " ++
    joinWith ", " (calls.map (fun tc => tc.function.name))

/-- Models `JSON.stringify` on a list of tool-call outputs (string escaping
elided; the result is only stored as opaque message content). -/
def jsonStringifyOutputs (outs : List ToolCallOutput) : String :=
  "[" ++ joinWith ","
    (outs.map (fun o =>
      "\x7b\"tool_call_id\":\"" ++ o.tool_call_id ++ "\",\"output\":\"" ++
        o.output ++ "\"\x7d")) ++ "]"

/-- Models `Promise.all(value.tool_calls.map(async tool_call => ...))`:
every handler invocation is awaited; if any rejects, the whole join
rejects (determinised here to the leftmost rejection); otherwise the
outputs are paired with their call ids in order. -/
def collectToolOutputs (handler : ToolCallFn → Except JsExn String) :
    List ToolCall → Except JsExn (List ToolCallOutput)
  | [] => Except.ok []
  | tc :: rest =>
    match handler tc.function with
    | Except.error e => Except.error e
    | Except.ok out =>
      match collectToolOutputs handler rest with
      | Except.error e => Except.error e
      | Except.ok outs => Except.ok ({ tool_call_id := tc.id, output := out } :: outs)

/-- The semantics of the nested `await submitToolOutput(...)` call, seen
from inside the event switch: it transforms the conversation state and
either returns normally or propagates an exception. -/
def SubmitFn : Type :=
  List ToolCallOutput → ConvState → ConvState × Option JsExn

/-- Models `catch (error) \x7b error.set(error) \x7d` at the end of
`handleIncomingResponse`: the catch binding shadows the `error` store, so
`.set` is looked up on the caught exception value itself; no `JsExn` value
carries a `set` method, so the lookup yields `undefined` and the call
raises a fresh `TypeError`, leaving the store untouched. -/
def shadowedCatchResult (_e : JsExn) : JsExn :=
  JsExn.typeError "error.set is not a function"

/-- One arm of the `switch (type)` over a decoded stream part, for the
tool-call-capable client. Returns the state after the arm plus the
exception escaping the arm, if any. -/
def handleStreamPart (onToolCall : Option (ToolCallFn → Except JsExn String))
    (submit : SubmitFn) (s : ConvState) : StreamPart → ConvState × Option JsExn
  | StreamPart.assistantMessage v =>
    match v.content with
    | [] =>
      -- `value.content[0]` is `undefined`; reading `.text` on it throws.
      (s, some (JsExn.typeError "Cannot read properties of undefined"))
    | b :: _ =>
      ({ s with messages := s.messages ++
          [{ id := v.id, role := v.role, content := b.textValue }] }, none)
  | StreamPart.dataMessage v =>
    ({ s with messages := s.messages ++
        [{ id := v.id.getD "", role := "data", content := "",
           data := some v.data }] }, none)
  | StreamPart.toolCalls v =>
    let s1 : ConvState := { s with messages := s.messages ++
        [{ id := "", role := "tool", content := "",
           tool_calls := some v.tool_calls }] }
    match onToolCall with
    | none =>
      ({ s1 with error := some (ErrVal.str (unhandledToolCallsText v.tool_calls)) },
        none)
    | some handler =>
      match collectToolOutputs handler v.tool_calls with
      | Except.error e => ({ s1 with error := some (ErrVal.exn e) }, none)
      | Except.ok outs =>
        match submit outs s1 with
        | (s2, none) => (s2, none)
        | (s2, some e) => ({ s2 with error := some (ErrVal.exn e) }, none)
  | StreamPart.controlData v =>
    let s1 : ConvState := { s with threadId := some v.threadId }
    match s1.messages.getLast? with
    | none =>
      -- `messages[messages.length - 1]` is `undefined`; assigning `.id` throws.
      (s1, some (JsExn.typeError "Cannot set properties of undefined"))
    | some lastMsg =>
      ({ s1 with messages := s1.messages.dropLast ++
          [{ lastMsg with id := v.messageId }] }, none)
  | StreamPart.error v =>
    ({ s with error := some (ErrVal.str v) }, none)

/-- The `for await (const ... of readDataStream(...))` loop over the
decoded parts: parts are consumed in order; an exception escaping one arm
aborts the loop and propagates. -/
def handleParts (onToolCall : Option (ToolCallFn → Except JsExn String))
    (submit : SubmitFn) : ConvState → List StreamPart → ConvState × Option JsExn
  | s, [] => (s, none)
  | s, p :: rest =>
    match handleStreamPart onToolCall submit s p with
    | (s', none) => handleParts onToolCall submit s' rest
    | (s', some e) => (s', some e)

/-- A response body: the stream parts it decodes to, followed optionally
by a structural failure raised by the decoded-event iteration itself. -/
structure ResponseBody where
  parts : List StreamPart
  iterFailure : Option JsExn := none

/-- `handleIncomingResponse(result)`: a missing body throws (outside the
`try`, so it propagates unchanged); otherwise the parts are consumed under
the `try`, and any exception of the iteration reaches the shadowed catch
clause, whose own `TypeError` is what actually escapes. -/
def handleIncomingResponse (onToolCall : Option (ToolCallFn → Except JsExn String))
    (submit : SubmitFn) (s : ConvState) (resp : Option ResponseBody) :
    ConvState × Option JsExn :=
  match resp with
  | none => (s, some (JsExn.jsError "The response body is empty."))
  | some body =>
    match handleParts onToolCall submit s body.parts with
    | (s', some e) => (s', some (shadowedCatchResult e))
    | (s', none) =>
      match body.iterFailure with
      | some e => (s', some (shadowedCatchResult e))
      | none => (s', none)

/-- The environment a conversation runs against: the hook options that
matter here (`threadId` parameter, `onToolCall`), the response the
transport yields to the k-th fetch, and the `nanoid` draw sequence. -/
structure Env where
  threadIdParam : Option String
  onToolCall : Option (ToolCallFn → Except JsExn String)
  responses : Nat → Option ResponseBody
  nanoidSeq : Nat → String

/-- `threadIdParam ?? get(threadId) ?? null` — the thread id put on a
request body. -/
def requestThreadId (env : Env) (s : ConvState) : Option String :=
  match env.threadIdParam with
  | some t => some t
  | none => s.threadId

/-- The tail shared by both submit operations:
`await handleIncomingResponse(result); status.set('awaiting_message');` —
an exception from response consumption propagates past the status reset,
so the reset runs only on normal completion. -/
def resetOnOk : ConvState × Option JsExn → ConvState × Option JsExn
  | (s, some e) => (s, some e)
  | (s, none) => ({ s with status := AssistantStatus.awaiting_message }, none)

/-- The state reached inside `submitToolOutput` after
`status.set('in_progress')` and the append of the serialized tool message
(with one fresh `nanoid`). -/
def toolSubmitState (env : Env) (payload : List ToolCallOutput)
    (rdata : Option (List (String × String))) (s : ConvState) : ConvState :=
  { s with
    status := AssistantStatus.in_progress,
    messages := s.messages ++
      [{ id := env.nanoidSeq s.rng, role := "tool",
         content := jsonStringifyOutputs payload,
         data := rdata.map JsData.record }],
    rng := s.rng + 1 }

/-- The request body `submitToolOutput` sends, read off the state at fetch
time. -/
def toolSubmitRequest (env : Env) (payload : List ToolCallOutput)
    (rdata : Option (List (String × String))) (s2 : ConvState) : FetchRequest :=
  { threadId := requestThreadId env s2,
    message := none, content := some payload, data := rdata, role := "tool" }

/-- `submitToolOutput(payload, requestOptions?)`, made total by a fuel
bound on the depth of the tool round-trip recursion: set status to
`in_progress`, append the tool message, issue the fetch, consume the
response (where a nested `tool_calls` part re-enters this function at
smaller fuel), and reset status only when consumption returned normally. -/
def submitToolOutput (env : Env) :
    Nat → List ToolCallOutput → Option (List (String × String)) → ConvState →
    ConvState × Option JsExn
  | 0, _, _, s => (s, some (JsExn.jsError "model: recursion fuel exhausted"))
  | fuel + 1, payload, rdata, s =>
    let s2 : ConvState := toolSubmitState env payload rdata s
    let req : FetchRequest := toolSubmitRequest env payload rdata s2
    let resp := env.responses s2.requests.length
    let s3 : ConvState := { s2 with requests := s2.requests ++ [req] }
    resetOnOk (handleIncomingResponse env.onToolCall
      (fun pl st => submitToolOutput env fuel pl none st) s3 resp)

/-- `submitMessage(event?, requestOptions?)`: a no-op on empty input;
otherwise set status to `in_progress`, append the user message, clear the
input, issue the fetch, consume the response, and reset status only when
consumption returned normally. -/
def submitMessage (env : Env) (fuel : Nat)
    (rdata : Option (List (String × String))) (s : ConvState) :
    ConvState × Option JsExn :=
  if s.input = "" then (s, none)
  else
    let s3 : ConvState := { s with
      status := AssistantStatus.in_progress,
      messages := s.messages ++
        [{ id := "", role := "user", content := s.input,
           data := rdata.map JsData.record }],
      input := "" }
    let req : FetchRequest :=
      { threadId := requestThreadId env s3,
        message := some s.input, content := none, data := rdata, role := "user" }
    let resp := env.responses s3.requests.length
    let s4 : ConvState := { s3 with requests := s3.requests ++ [req] }
    resetOnOk (handleIncomingResponse env.onToolCall
      (fun pl st => submitToolOutput env fuel pl none st) s4 resp)

/-- An event the producer callback can emit through its handle: the handle
passed to `process` exposes only `sendMessage`, `sendDataMessage` and
`sendToolCallMessage` (never the control-data or error emitters). -/
inductive ProducerEvent where
  | assistantMsg (v : AssistantMessageValue)
  | dataMsg (v : DataMessageValue)
  | toolCallMsg (v : ToolCallsValue)
deriving DecidableEq, Repr

/-- The stream part each handle call encodes onto the wire. -/
def ProducerEvent.toStreamPart : ProducerEvent → StreamPart
  | ProducerEvent.assistantMsg v => StreamPart.assistantMessage v
  | ProducerEvent.dataMsg v => StreamPart.dataMessage v
  | ProducerEvent.toolCallMsg v => StreamPart.toolCalls v

/-- The observable behaviour of one application callback invocation: the
handle calls it made, in call order, and whether it returned normally or
raised. -/
structure CallbackRun where
  sent : List ProducerEvent
  outcome : Option JsExn
deriving DecidableEq, Repr

/-- What a producer session does to its stream: the parts enqueued, in
order, and how many times the controller was closed. -/
structure SessionResult where
  enqueued : List StreamPart
  closeCount : Nat
deriving DecidableEq, Repr

/-- `experimental_AssistantResponse(settings, process)`, restricted to the
stream effects of its `start` routine: first the control-data part is
enqueued unconditionally, then whatever the callback sent through its
handle, in call order; `catch` enqueues one error part built from the
failure's message text; `finally` closes the controller exactly once. -/
def experimental_AssistantResponse (threadId messageId : String)
    (run : CallbackRun) : SessionResult :=
  { enqueued :=
      StreamPart.controlData { threadId := threadId, messageId := messageId } ::
        (run.sent.map ProducerEvent.toStreamPart ++
          (match run.outcome with
           | none => []
           | some e => [StreamPart.error (errMessageText e)])),
    closeCount := 1 }

/-- Recognises `assistant_control_data` parts. -/
def isControlDataPart : StreamPart → Bool
  | StreamPart.controlData _ => true
  | _ => false

/-- Recognises `error` parts. -/
def isErrorPart : StreamPart → Bool
  | StreamPart.error _ => true
  | _ => false

/-- The frame relation every operation of the state machine preserves:
history length never shrinks, every message that is not the most recently
appended one keeps its value, and the request log only grows at the end. -/
def Evolves (s t : ConvState) : Prop :=
  s.messages.length ≤ t.messages.length ∧
  (∀ i, i + 1 < s.messages.length → t.messages[i]? = s.messages[i]?) ∧
  ∃ l, t.requests = s.requests ++ l

/-- An environment whose transport always answers with a bodiless
response and which has no tool handler. -/
def emptyBodyEnv : Env :=
  { threadIdParam := none, onToolCall := none,
    responses := fun _ => none, nanoidSeq := fun _ => "n1" }

/-- An environment whose transport answers with a present body whose
decoded-event iteration raises a structural parse failure. -/
def malformedBodyEnv : Env :=
  { threadIdParam := none, onToolCall := none,
    responses := fun _ => some
      { parts := [],
        iterFailure := some (JsExn.jsError "Failed to parse stream string. Invalid code.") },
    nanoidSeq := fun _ => "n1" }

/-- A conversation about to submit the pending input "hi". -/
def freshState : ConvState :=
  { messages := [], threadId := none,
    status := AssistantStatus.awaiting_message, error := none,
    input := "hi", requests := [], rng := 0 }

/-- A conversation that has already appended one user message. -/
def oneMessageState : ConvState :=
  { messages := [{ id := "", role := "user", content := "hello" }],
    threadId := none, status := AssistantStatus.in_progress, error := none,
    input := "", requests := [], rng := 0 }

/-- Two tool calls as they appear in Scenario D of the specification. -/
def demoToolCalls : List ToolCall :=
  [{ id := "call1", function := { name := "get_weather", arguments := "\x7b\x7d" } },
   { id := "call2", function := { name := "get_time", arguments := "\x7b\x7d" } }]

/-- A handler that answers the weather call and fails the time call. -/
def oneFailingHandler : ToolCallFn → Except JsExn String :=
  fun fn =>
    if fn.name = "get_weather" then Except.ok "sunny"
    else Except.error (JsExn.jsError "time service crashed")

/-- An environment configured with `oneFailingHandler`, over a transport
that always answers with a bodiless response. -/
def failingToolEnv : Env :=
  { threadIdParam := none, onToolCall := some oneFailingHandler,
    responses := fun _ => none, nanoidSeq := fun _ => "n1" }

/-- A conversation holding two messages (used to observe the frame
property at a non-last position). -/
def twoMessageState : ConvState :=
  { messages := [{ id := "u1", role := "user", content := "hello" },
                 { id := "a1", role := "assistant", content := "hi there" }],
    threadId := some "t0", status := AssistantStatus.in_progress, error := none,
    input := "", requests := [], rng := 0 }

/-- The event switch as the client actually runs it: the handler comes
from the environment and nested submissions are performed by
`submitToolOutput` at the given recursion fuel. -/
def processPart (env : Env) (fuel : Nat) (s : ConvState) (p : StreamPart) :
    ConvState × Option JsExn :=
  handleStreamPart env.onToolCall
    (fun pl st => submitToolOutput env fuel pl none st) s p

/-- The event loop as the client actually runs it. -/
def processParts (env : Env) (fuel : Nat) (s : ConvState) (ps : List StreamPart) :
    ConvState × Option JsExn :=
  handleParts env.onToolCall
    (fun pl st => submitToolOutput env fuel pl none st) s ps

theorem evolves_refl (s : ConvState) : Evolves s s :=
  ⟨Nat.le_refl _, fun _ _ => rfl, [], by simp⟩

theorem evolves_trans {s t u : ConvState} (h1 : Evolves s t) (h2 : Evolves t u) :
    Evolves s u := by
  obtain ⟨hl1, hm1, l1, hr1⟩ := h1
  obtain ⟨hl2, hm2, l2, hr2⟩ := h2
  refine ⟨Nat.le_trans hl1 hl2, fun i hi => ?_, l1 ++ l2, by simp [hr2, hr1]⟩
  rw [hm2 i (Nat.lt_of_lt_of_le hi hl1), hm1 i hi]

theorem evolves_of_append {s t : ConvState} (ms : List Message)
    (rs : List FetchRequest) (hm : t.messages = s.messages ++ ms)
    (hr : t.requests = s.requests ++ rs) : Evolves s t := by
  refine ⟨by simp [hm], fun i hi => ?_, rs, hr⟩
  rw [hm, List.getElem?_append_left (Nat.lt_of_succ_lt hi)]

theorem evolves_of_backfill {s t : ConvState} (m : Message)
    (hne : s.messages ≠ [])
    (hm : t.messages = s.messages.dropLast ++ [m])
    (hr : t.requests = s.requests) : Evolves s t := by
  have hpos : 0 < s.messages.length := List.length_pos.mpr hne
  have hlen : t.messages.length = s.messages.length := by
    simp only [hm, List.length_append, List.length_dropLast, List.length_cons,
      List.length_nil]
    omega
  refine ⟨Nat.le_of_eq hlen.symm, fun i hi => ?_, [], by simp [hr]⟩
  have hdrop : i < s.messages.dropLast.length := by
    simp only [List.length_dropLast]; omega
  rw [hm, List.getElem?_append_left hdrop, List.dropLast_eq_take,
    List.getElem?_take, if_pos (by omega)]

theorem evolves_resetOnOk (r : ConvState × Option JsExn) :
    Evolves r.1 (resetOnOk r).1 := by
  rcases r with ⟨s, eopt⟩
  cases eopt with
  | none => exact evolves_of_append [] [] (by simp [resetOnOk]) (by simp [resetOnOk])
  | some e => exact evolves_refl s

theorem evolves_handleStreamPart
    (onToolCall : Option (ToolCallFn → Except JsExn String)) (submit : SubmitFn)
    (hsub : ∀ pl st, Evolves st (submit pl st).1) (s : ConvState)
    (p : StreamPart) : Evolves s (handleStreamPart onToolCall submit s p).1 := by
  cases p with
  | assistantMessage v =>
    cases hc : v.content with
    | nil => simp only [handleStreamPart, hc]; exact evolves_refl s
    | cons b rest =>
      simp only [handleStreamPart, hc]
      exact evolves_of_append _ [] rfl (by simp)
  | dataMessage v =>
    simp only [handleStreamPart]
    exact evolves_of_append _ [] rfl (by simp)
  | toolCalls v =>
    simp only [handleStreamPart]
    cases onToolCall with
    | none => exact evolves_of_append _ [] rfl (by simp)
    | some handler =>
      cases hco : collectToolOutputs handler v.tool_calls with
      | error e =>
        simp only [hco]
        exact evolves_of_append _ [] rfl (by simp)
      | ok outs =>
        simp only [hco]
        rcases hs2 : submit outs
            { s with messages := s.messages ++
                [{ id := "", role := "tool", content := "",
                   tool_calls := some v.tool_calls }] } with ⟨s2, eopt⟩
        have h0 : Evolves s
            { s with messages := s.messages ++
                [{ id := "", role := "tool", content := "",
                   tool_calls := some v.tool_calls }] } :=
          evolves_of_append _ [] rfl (by simp)
        have h1 := hsub outs
          { s with messages := s.messages ++
              [{ id := "", role := "tool", content := "",
                 tool_calls := some v.tool_calls }] }
        rw [hs2] at h1
        cases eopt with
        | none => exact evolves_trans h0 h1
        | some e =>
          exact evolves_trans h0
            (evolves_trans h1 (evolves_of_append [] [] (by simp) (by simp)))
  | controlData v =>
    simp only [handleStreamPart]
    cases hl : s.messages.getLast? with
    | none =>
      simp only [hl]
      exact evolves_of_append [] [] (by simp) (by simp)
    | some lastMsg =>
      simp only [hl]
      refine evolves_of_backfill { lastMsg with id := v.messageId } ?_ (by simp) (by simp)
      intro h
      rw [h] at hl
      simp at hl
  | error v =>
    simp only [handleStreamPart]
    exact evolves_of_append [] [] (by simp) (by simp)

theorem evolves_handleParts
    (onToolCall : Option (ToolCallFn → Except JsExn String)) (submit : SubmitFn)
    (hsub : ∀ pl st, Evolves st (submit pl st).1) :
    ∀ (ps : List StreamPart) (s : ConvState),
      Evolves s (handleParts onToolCall submit s ps).1
  | [], s => evolves_refl s
  | p :: rest, s => by
    simp only [handleParts]
    rcases hp : handleStreamPart onToolCall submit s p with ⟨s', eopt⟩
    have h1 : Evolves s s' := by
      have := evolves_handleStreamPart onToolCall submit hsub s p
      rwa [hp] at this
    cases eopt with
    | none => exact evolves_trans h1 (evolves_handleParts onToolCall submit hsub rest s')
    | some e => exact h1

theorem evolves_handleIncomingResponse
    (onToolCall : Option (ToolCallFn → Except JsExn String)) (submit : SubmitFn)
    (hsub : ∀ pl st, Evolves st (submit pl st).1) (s : ConvState)
    (resp : Option ResponseBody) :
    Evolves s (handleIncomingResponse onToolCall submit s resp).1 := by
  cases resp with
  | none => exact evolves_refl s
  | some body =>
    simp only [handleIncomingResponse]
    rcases hp : handleParts onToolCall submit s body.parts with ⟨s', eopt⟩
    have h1 : Evolves s s' := by
      have := evolves_handleParts onToolCall submit hsub body.parts s
      rwa [hp] at this
    cases eopt with
    | some e => exact h1
    | none => cases body.iterFailure <;> exact h1

theorem evolves_submitToolOutput (env : Env) :
    ∀ (fuel : Nat) (payload : List ToolCallOutput)
      (rdata : Option (List (String × String))) (s : ConvState),
      Evolves s (submitToolOutput env fuel payload rdata s).1
  | 0, _, _, s => evolves_refl s
  | fuel + 1, payload, rdata, s => by
    simp only [submitToolOutput]
    refine evolves_trans
      (t := { toolSubmitState env payload rdata s with
        requests := (toolSubmitState env payload rdata s).requests ++
          [toolSubmitRequest env payload rdata (toolSubmitState env payload rdata s)] })
      ?_ ?_
    · exact evolves_of_append
        [{ id := env.nanoidSeq s.rng, role := "tool",
           content := jsonStringifyOutputs payload,
           data := rdata.map JsData.record }]
        [toolSubmitRequest env payload rdata (toolSubmitState env payload rdata s)]
        (by simp [toolSubmitState]) (by simp [toolSubmitState])
    · exact evolves_trans
        (evolves_handleIncomingResponse env.onToolCall _
          (fun pl st => evolves_submitToolOutput env fuel pl none st) _ _)
        (evolves_resetOnOk _)

theorem evolves_submitMessage (env : Env) (fuel : Nat)
    (rdata : Option (List (String × String))) (s : ConvState) :
    Evolves s (submitMessage env fuel rdata s).1 := by
  by_cases hin : s.input = ""
  · simp only [submitMessage, if_pos hin]; exact evolves_refl s
  · simp only [submitMessage, if_neg hin]
    exact evolves_trans (evolves_of_append _ _ rfl rfl)
      (evolves_trans
        (evolves_handleIncomingResponse env.onToolCall _
          (fun pl st => evolves_submitToolOutput env fuel pl none st) _ _)
        (evolves_resetOnOk _))

theorem resetOnOk_status (r : ConvState × Option JsExn) (s' : ConvState)
    (h : resetOnOk r = (s', none)) :
    s'.status = AssistantStatus.awaiting_message := by
  rcases r with ⟨t, eopt⟩
  cases eopt with
  | none =>
    simp only [resetOnOk, Prod.mk.injEq] at h
    rw [← h.1]
  | some e => simp [resetOnOk] at h

theorem collectToolOutputs_error_of_failure
    (handler : ToolCallFn → Except JsExn String) :
    ∀ (calls : List ToolCall),
      (∃ tc ∈ calls, ∃ e, handler tc.function = Except.error e) →
      ∃ e, collectToolOutputs handler calls = Except.error e ∧
        ∃ tc ∈ calls, handler tc.function = Except.error e
  | [], h => absurd h (by simp)
  | tc :: rest, h => by
    simp only [collectToolOutputs]
    cases hh : handler tc.function with
    | error e => exact ⟨e, rfl, tc, by simp, hh⟩
    | ok out =>
      obtain ⟨tc', htc', e', he'⟩ := h
      rcases List.mem_cons.mp htc' with h1 | h1
      · rw [h1] at he'
        rw [hh] at he'
        cases he'
      · obtain ⟨e, hce, tc2, htc2, he2⟩ :=
          collectToolOutputs_error_of_failure handler rest ⟨tc', h1, e', he'⟩
        refine ⟨e, ?_, tc2, List.mem_cons_of_mem _ htc2, he2⟩
        rw [hce]

theorem mem_joinWith_infix (sep : String) :
    ∀ (names : List String) (n : String), n ∈ names →
      ∃ l r, (joinWith sep names).data = l ++ n.data ++ r
  | [], n, h => absurd h (by simp)
  | [a], n, h => by
    have hna : n = a := by simpa using h
    rw [hna]
    exact ⟨[], [], by simp [joinWith]⟩
  | a :: b :: rest, n, h => by
    rcases List.mem_cons.mp h with h1 | h1
    · rw [h1]
      exact ⟨[], sep.data ++ (joinWith sep (b :: rest)).data, by simp [joinWith]⟩
    · obtain ⟨l, r, hlr⟩ := mem_joinWith_infix sep (b :: rest) n h1
      refine ⟨a.data ++ sep.data ++ l, r, ?_⟩
      simp [joinWith, hlr]

theorem filter_controlData_map_producer (es : List ProducerEvent) :
    (es.map ProducerEvent.toStreamPart).filter isControlDataPart = [] := by
  induction es with
  | nil => rfl
  | cons e rest ih =>
    cases e <;> simpa [ProducerEvent.toStreamPart, isControlDataPart] using ih

theorem filter_errorPart_map_producer (es : List ProducerEvent) :
    (es.map ProducerEvent.toStreamPart).filter isErrorPart = [] := by
  induction es with
  | nil => rfl
  | cons e rest ih =>
    cases e <;> simpa [ProducerEvent.toStreamPart, isErrorPart] using ih

theorem resetOnOk_ok (t : ConvState) :
    resetOnOk (t, none) =
      ({ t with status := AssistantStatus.awaiting_message }, none) := rfl

theorem resetOnOk_err (t : ConvState) (e : JsExn) :
    resetOnOk (t, some e) = (t, some e) := rfl

theorem submitToolOutput_issues_request (env : Env) (fuel : Nat)
    (payload : List ToolCallOutput) (rdata : Option (List (String × String)))
    (s : ConvState) :
    ∃ req more, req.content = some payload ∧ req.role = "tool" ∧
      (submitToolOutput env (fuel + 1) payload rdata s).1.requests =
        s.requests ++ req :: more := by
  simp only [submitToolOutput]
  obtain ⟨-, -, l, hl⟩ := evolves_trans
    (evolves_handleIncomingResponse env.onToolCall
      (fun pl st => submitToolOutput env fuel pl none st)
      (fun pl st => evolves_submitToolOutput env fuel pl none st)
      { toolSubmitState env payload rdata s with
        requests := (toolSubmitState env payload rdata s).requests ++
          [toolSubmitRequest env payload rdata (toolSubmitState env payload rdata s)] }
      (env.responses (toolSubmitState env payload rdata s).requests.length))
    (evolves_resetOnOk _)
  refine ⟨toolSubmitRequest env payload rdata (toolSubmitState env payload rdata s),
    l, rfl, rfl, ?_⟩
  rw [hl]
  simp [toolSubmitState]

/-- C1 (counterexample): with the pending input "hi" and a transport whose
response carries no body, `submitMessage` begins a round trip (status goes
to `in_progress`), the `EmptyResponseBody` failure propagates to the
caller, and — contrary to the claim — status is still `in_progress` when
the call completes, not `awaiting_message`. -/
theorem submitMessage_empty_body_status_stuck :
    (submitMessage emptyBodyEnv 3 none freshState).1.status =
      AssistantStatus.in_progress ∧
    (submitMessage emptyBodyEnv 3 none freshState).2 =
      some (JsExn.jsError "The response body is empty.") ∧
    AssistantStatus.in_progress ≠ AssistantStatus.awaiting_message := by
  refine ⟨rfl, rfl, by decide⟩

/-- C1 (amended): for a `submitMessage` call that begins a round trip, and
for any `submitToolOutput` call, status is back to `awaiting_message`
whenever the call completes without a propagated failure; when the
response carries no body the `EmptyResponseBody` failure is raised to the
caller before the reset, leaving status `in_progress`. -/
theorem submit_status_reset_on_normal_return (env : Env) (fuel : Nat)
    (rdata : Option (List (String × String))) (s : ConvState)
    (hin : s.input ≠ "") :
    (∀ s', submitMessage env fuel rdata s = (s', none) →
      s'.status = AssistantStatus.awaiting_message) ∧
    (∀ payload s', submitToolOutput env (fuel + 1) payload rdata s = (s', none) →
      s'.status = AssistantStatus.awaiting_message) ∧
    (env.responses s.requests.length = none →
      (submitMessage env fuel rdata s).1.status = AssistantStatus.in_progress ∧
      (submitMessage env fuel rdata s).2 =
        some (JsExn.jsError "The response body is empty.")) := by
  refine ⟨?_, ?_, ?_⟩
  · intro s' h
    rw [submitMessage, if_neg hin] at h
    exact resetOnOk_status _ s' h
  · intro payload s' h
    simp only [submitToolOutput] at h
    exact resetOnOk_status _ s' h
  · intro hresp
    rw [submitMessage, if_neg hin]
    constructor
    · simp [handleIncomingResponse, hresp, resetOnOk]
    · simp [handleIncomingResponse, hresp, resetOnOk]

theorem submit_status_reset_on_normal_return_witness :
    freshState.input ≠ "" ∧
    ((∀ s', submitMessage emptyBodyEnv 2 none freshState = (s', none) →
       s'.status = AssistantStatus.awaiting_message) ∧
     (∀ payload s',
        submitToolOutput emptyBodyEnv (2 + 1) payload none freshState = (s', none) →
        s'.status = AssistantStatus.awaiting_message) ∧
     (emptyBodyEnv.responses freshState.requests.length = none →
       (submitMessage emptyBodyEnv 2 none freshState).1.status =
         AssistantStatus.in_progress ∧
       (submitMessage emptyBodyEnv 2 none freshState).2 =
         some (JsExn.jsError "The response body is empty."))) :=
  ⟨by decide,
    submit_status_reset_on_normal_return emptyBodyEnv 2 none freshState (by decide)⟩

/-- C2: the claim is right and the code is wrong. A structural failure of
the decoded-event iteration reaches `catch (error)`, whose binding shadows
the `error` store; `error.set(error)` therefore calls `.set` on the caught
exception, raising a `TypeError` that propagates to the caller of
`submitMessage`, and the error store stays unset — the failure is neither
recorded nor absorbed. Evaluated here at a concrete failing input. -/
theorem structural_failure_not_recorded_and_propagates :
    (submitMessage malformedBodyEnv 3 none freshState).2 =
      some (JsExn.typeError "error.set is not a function") ∧
    (submitMessage malformedBodyEnv 3 none freshState).1.error = none := by
  exact ⟨rfl, rfl⟩

/-- C3: processing a `tool_calls` part never throws out of the switch arm,
and always ends either with a value recorded in the error store (no
handler configured, a handler invocation failed, or the nested submission
failed) or with a `submitToolOutput` request carrying all collected
handler outputs appended to the request log — never with neither effect. -/
theorem toolCalls_never_silently_dropped (env : Env) (fuel : Nat)
    (s : ConvState) (v : ToolCallsValue) :
    (processPart env fuel s (StreamPart.toolCalls v)).2 = none ∧
    ((processPart env fuel s (StreamPart.toolCalls v)).1.error.isSome = true ∨
      ∃ handler outs req more, env.onToolCall = some handler ∧
        collectToolOutputs handler v.tool_calls = Except.ok outs ∧
        req.content = some outs ∧ req.role = "tool" ∧
        (processPart env fuel s (StreamPart.toolCalls v)).1.requests =
          s.requests ++ req :: more) := by
  cases ho : env.onToolCall with
  | none =>
    simp [processPart, ho, handleStreamPart]
  | some handler =>
    cases hco : collectToolOutputs handler v.tool_calls with
    | error e =>
      simp [processPart, ho, handleStreamPart, hco]
    | ok outs =>
      simp only [processPart, ho, handleStreamPart, hco]
      rcases hs : submitToolOutput env fuel outs none
          { s with messages := s.messages ++
              [{ id := "", role := "tool", content := "",
                 tool_calls := some v.tool_calls }] } with ⟨s2, eopt⟩
      cases eopt with
      | some e => exact ⟨rfl, Or.inl rfl⟩
      | none =>
        cases fuel with
        | zero => simp [submitToolOutput] at hs
        | succ f =>
          obtain ⟨req, more, h1, h2, h3⟩ :=
            submitToolOutput_issues_request env f outs none
              { s with messages := s.messages ++
                  [{ id := "", role := "tool", content := "",
                     tool_calls := some v.tool_calls }] }
          have hs' : submitToolOutput env (f + 1) outs none
              { s with messages := s.messages ++
                  [{ id := "", role := "tool", content := "",
                     tool_calls := some v.tool_calls }] } = (s2, none) := hs
          rw [hs'] at h3
          refine ⟨rfl, Or.inr ⟨handler, outs, req, more, rfl, hco, h1, h2, ?_⟩⟩
          exact h3

/-- C4 (counterexample): after a `ControlData` event binds `threadId` to
"t1", a later `ControlData` event carrying "t2" changes the bound value to
"t2" — the claim that the bound thread id is left unchanged is false. -/
theorem second_controlData_overwrites_threadId :
    ((processParts emptyBodyEnv 1 oneMessageState
        [StreamPart.controlData { threadId := "t1", messageId := "m1" },
         StreamPart.controlData { threadId := "t2", messageId := "m2" }]).1.threadId =
      some "t2") ∧
    (some "t2" : Option String) ≠ some "t1" := ⟨rfl, by decide⟩

/-- C4 (amended): `threadId.set(value.threadId)` is unconditional, so
after processing any `ControlData` event the bound thread id equals that
event's thread id — last write wins, whether or not one was bound before. -/
theorem controlData_threadId_last_write_wins (env : Env) (fuel : Nat)
    (s : ConvState) (v : ControlDataValue) :
    (processPart env fuel s (StreamPart.controlData v)).1.threadId =
      some v.threadId := by
  simp only [processPart, handleStreamPart]
  cases hl : s.messages.getLast? with
  | none => simp [hl]
  | some lastMsg => simp [hl]

/-- C5: in every producer session the stream begins with exactly one
`ControlData` part carrying the given thread and message ids; it is
enqueued before the callback runs, so it precedes everything the callback
sends, and no other `ControlData` part ever appears (the handle exposes no
way to emit one). -/
theorem controlData_enqueued_first_and_once (tid mid : String)
    (run : CallbackRun) :
    ∃ tail,
      (experimental_AssistantResponse tid mid run).enqueued =
        StreamPart.controlData { threadId := tid, messageId := mid } ::
          (run.sent.map ProducerEvent.toStreamPart ++ tail) ∧
      (experimental_AssistantResponse tid mid run).enqueued.filter
          isControlDataPart =
        [StreamPart.controlData { threadId := tid, messageId := mid }] := by
  refine ⟨match run.outcome with
    | none => []
    | some e => [StreamPart.error (errMessageText e)], rfl, ?_⟩
  cases ho : run.outcome with
  | none =>
    simp [experimental_AssistantResponse, ho, isControlDataPart,
      filter_controlData_map_producer]
  | some e =>
    simp [experimental_AssistantResponse, ho, isControlDataPart,
      filter_controlData_map_producer]

/-- C6: the producer session closes its stream exactly once in every run,
and when the application callback raises a failure the stream carries
exactly one `Error` part, holding the failure's message text, placed after
everything the callback had already sent. -/
theorem callback_failure_one_error_single_close (tid mid : String)
    (run : CallbackRun) :
    (experimental_AssistantResponse tid mid run).closeCount = 1 ∧
    ∀ e, run.outcome = some e →
      (experimental_AssistantResponse tid mid run).enqueued =
        StreamPart.controlData { threadId := tid, messageId := mid } ::
          (run.sent.map ProducerEvent.toStreamPart ++
            [StreamPart.error (errMessageText e)]) ∧
      (experimental_AssistantResponse tid mid run).enqueued.filter isErrorPart =
        [StreamPart.error (errMessageText e)] := by
  refine ⟨rfl, fun e he => ⟨?_, ?_⟩⟩
  · simp [experimental_AssistantResponse, he]
  · simp [experimental_AssistantResponse, he, isErrorPart,
      filter_errorPart_map_producer]

theorem callback_failure_one_error_single_close_witness :
    (experimental_AssistantResponse "t1" "m1"
      { sent := [ProducerEvent.assistantMsg
          { id := "a1", role := "assistant",
            content := [{ textValue := "partial answer" }] }],
        outcome := some (JsExn.jsError "boom") }).closeCount = 1 ∧
    ((CallbackRun.mk
        [ProducerEvent.assistantMsg
          { id := "a1", role := "assistant",
            content := [{ textValue := "partial answer" }] }]
        (some (JsExn.jsError "boom"))).outcome = some (JsExn.jsError "boom") →
      (experimental_AssistantResponse "t1" "m1"
        { sent := [ProducerEvent.assistantMsg
            { id := "a1", role := "assistant",
              content := [{ textValue := "partial answer" }] }],
          outcome := some (JsExn.jsError "boom") }).enqueued =
        StreamPart.controlData { threadId := "t1", messageId := "m1" } ::
          ([ProducerEvent.assistantMsg
              { id := "a1", role := "assistant",
                content := [{ textValue := "partial answer" }] }].map
            ProducerEvent.toStreamPart ++
            [StreamPart.error (errMessageText (JsExn.jsError "boom"))]) ∧
      (experimental_AssistantResponse "t1" "m1"
        { sent := [ProducerEvent.assistantMsg
            { id := "a1", role := "assistant",
              content := [{ textValue := "partial answer" }] }],
          outcome := some (JsExn.jsError "boom") }).enqueued.filter isErrorPart =
        [StreamPart.error (errMessageText (JsExn.jsError "boom"))]) :=
  ⟨(callback_failure_one_error_single_close "t1" "m1" _).1,
    fun _ => (callback_failure_one_error_single_close "t1" "m1"
      { sent := [ProducerEvent.assistantMsg
          { id := "a1", role := "assistant",
            content := [{ textValue := "partial answer" }] }],
        outcome := some (JsExn.jsError "boom") }).2
      (JsExn.jsError "boom") rfl⟩

/-- C7: when a handler is configured and any one of the concurrent handler
invocations for a `tool_calls` part fails, the failing invocation's error
is recorded in the error store and the request log is unchanged — zero
`submitToolOutput` requests are issued for that round trip. -/
theorem tool_handler_failure_all_or_nothing (env : Env) (fuel : Nat)
    (s : ConvState) (v : ToolCallsValue)
    (handler : ToolCallFn → Except JsExn String)
    (hh : env.onToolCall = some handler)
    (hf : ∃ tc ∈ v.tool_calls, ∃ e, handler tc.function = Except.error e) :
    (processPart env fuel s (StreamPart.toolCalls v)).2 = none ∧
    (processPart env fuel s (StreamPart.toolCalls v)).1.requests = s.requests ∧
    ∃ e, (∃ tc ∈ v.tool_calls, handler tc.function = Except.error e) ∧
      (processPart env fuel s (StreamPart.toolCalls v)).1.error =
        some (ErrVal.exn e) := by
  obtain ⟨e, hce, tc, htc, he⟩ :=
    collectToolOutputs_error_of_failure handler v.tool_calls hf
  refine ⟨?_, ?_, ⟨e, ⟨tc, htc, he⟩, ?_⟩⟩ <;>
    simp [processPart, hh, handleStreamPart, hce]

theorem tool_handler_failure_all_or_nothing_witness :
    failingToolEnv.onToolCall = some oneFailingHandler ∧
    (∃ tc ∈ demoToolCalls, ∃ e, oneFailingHandler tc.function = Except.error e) ∧
    ((processPart failingToolEnv 2 oneMessageState
        (StreamPart.toolCalls { tool_calls := demoToolCalls })).2 = none ∧
     (processPart failingToolEnv 2 oneMessageState
        (StreamPart.toolCalls { tool_calls := demoToolCalls })).1.requests =
       oneMessageState.requests ∧
     ∃ e, (∃ tc ∈ demoToolCalls, oneFailingHandler tc.function = Except.error e) ∧
       (processPart failingToolEnv 2 oneMessageState
          (StreamPart.toolCalls { tool_calls := demoToolCalls })).1.error =
         some (ErrVal.exn e)) :=
  ⟨rfl,
    ⟨{ id := "call2", function := { name := "get_time", arguments := "\x7b\x7d" } },
      by simp [demoToolCalls], JsExn.jsError "time service crashed", rfl⟩,
    tool_handler_failure_all_or_nothing failingToolEnv 2 oneMessageState
      { tool_calls := demoToolCalls } oneFailingHandler rfl
      ⟨{ id := "call2", function := { name := "get_time", arguments := "\x7b\x7d" } },
        by simp [demoToolCalls], JsExn.jsError "time service crashed", rfl⟩⟩

/-- C8: when no handler is configured, processing a `tool_calls` part
records the source's template-string error, whose text contains every
requested function name (joined by a comma); the request log is unchanged,
so the round trip ends without further network activity. -/
theorem unhandled_toolCalls_records_all_names (env : Env) (fuel : Nat)
    (s : ConvState) (v : ToolCallsValue) (hnone : env.onToolCall = none) :
    (processPart env fuel s (StreamPart.toolCalls v)).2 = none ∧
    (processPart env fuel s (StreamPart.toolCalls v)).1.requests = s.requests ∧
    (processPart env fuel s (StreamPart.toolCalls v)).1.error =
      some (ErrVal.str (unhandledToolCallsText v.tool_calls)) ∧
    ∀ tc ∈ v.tool_calls, ∃ l r,
      (unhandledToolCallsText v.tool_calls).data =
        l ++ tc.function.name.data ++ r := by
  refine ⟨?_, ?_, ?_, ?_⟩
  · simp [processPart, hnone, handleStreamPart]
  · simp [processPart, hnone, handleStreamPart]
  · simp [processPart, hnone, handleStreamPart]
  · intro tc htc
    obtain ⟨l, r, hlr⟩ := mem_joinWith_infix ", "
      (v.tool_calls.map (fun c => c.function.name)) tc.function.name
      (List.mem_map_of_mem _ htc)
    refine ⟨("onToolCall is not defined for this assistant. Tool call names invoked ").data ++ l,
      r, ?_⟩
    simp [unhandledToolCallsText, hlr]

theorem unhandled_toolCalls_records_all_names_witness :
    emptyBodyEnv.onToolCall = none ∧
    ((processPart emptyBodyEnv 2 oneMessageState
        (StreamPart.toolCalls { tool_calls := demoToolCalls })).2 = none ∧
     (processPart emptyBodyEnv 2 oneMessageState
        (StreamPart.toolCalls { tool_calls := demoToolCalls })).1.requests =
       oneMessageState.requests ∧
     (processPart emptyBodyEnv 2 oneMessageState
        (StreamPart.toolCalls { tool_calls := demoToolCalls })).1.error =
       some (ErrVal.str (unhandledToolCallsText demoToolCalls)) ∧
     ∀ tc ∈ demoToolCalls, ∃ l r,
       (unhandledToolCallsText demoToolCalls).data =
         l ++ tc.function.name.data ++ r) :=
  ⟨rfl, unhandled_toolCalls_records_all_names emptyBodyEnv 2 oneMessageState
    { tool_calls := demoToolCalls } rfl⟩

/-- C9: over any sequence of decoded parts, every history message that is
not the most recently appended one keeps exactly the value it had; and a
`ControlData` part rewrites the history to the same messages with only the
last one's `id` field replaced by the event's message id. -/
theorem history_append_only_with_backfill (env : Env) (fuel : Nat)
    (s : ConvState) (parts : List StreamPart) :
    (∀ i m, i + 1 < s.messages.length → s.messages[i]? = some m →
      (processParts env fuel s parts).1.messages[i]? = some m) ∧
    (∀ v lastMsg, s.messages.getLast? = some lastMsg →
      (processPart env fuel s (StreamPart.controlData v)).1.messages =
        s.messages.dropLast ++ [{ lastMsg with id := v.messageId }]) := by
  constructor
  · intro i m hi hm
    simp only [processParts]
    obtain ⟨-, hstable, -⟩ :=
      evolves_handleParts env.onToolCall
        (fun pl st => submitToolOutput env fuel pl none st)
        (fun pl st => evolves_submitToolOutput env fuel pl none st) parts s
    rw [hstable i hi, hm]
  · intro v lastMsg hl
    simp [processPart, handleStreamPart, hl]

theorem history_append_only_with_backfill_witness :
    (0 + 1 < twoMessageState.messages.length ∧
     twoMessageState.messages[0]? =
       some { id := "u1", role := "user", content := "hello" } ∧
     (processParts emptyBodyEnv 1 twoMessageState
        [StreamPart.controlData { threadId := "t9", messageId := "m9" },
         StreamPart.error "upstream hiccup"]).1.messages[0]? =
       some { id := "u1", role := "user", content := "hello" }) ∧
    (twoMessageState.messages.getLast? =
       some { id := "a1", role := "assistant", content := "hi there" } ∧
     (processPart emptyBodyEnv 1 twoMessageState
        (StreamPart.controlData { threadId := "t9", messageId := "m9" })).1.messages =
       twoMessageState.messages.dropLast ++
         [{ id := "m9", role := "assistant", content := "hi there" }]) :=
  ⟨⟨by decide, rfl,
    (history_append_only_with_backfill emptyBodyEnv 1 twoMessageState
        [StreamPart.controlData { threadId := "t9", messageId := "m9" },
         StreamPart.error "upstream hiccup"]).1 0
      { id := "u1", role := "user", content := "hello" } (by decide) rfl⟩,
   ⟨rfl,
    (history_append_only_with_backfill emptyBodyEnv 1 twoMessageState []).2
      { threadId := "t9", messageId := "m9" }
      { id := "a1", role := "assistant", content := "hi there" } rfl⟩⟩

/-- C10: an `assistant_message` part appends one message whose content is
the text value of the first content block; when the content list is empty
the arm fails (reading `.text` of `undefined`) instead of appending. -/
theorem assistantMessage_first_block (env : Env) (fuel : Nat)
    (s : ConvState) (v : AssistantMessageValue) :
    (v.content = [] →
      processPart env fuel s (StreamPart.assistantMessage v) =
        (s, some (JsExn.typeError "Cannot read properties of undefined"))) ∧
    (∀ b rest, v.content = b :: rest →
      processPart env fuel s (StreamPart.assistantMessage v) =
        ({ s with messages := s.messages ++
            [{ id := v.id, role := v.role, content := b.textValue }] }, none)) := by
  constructor
  · intro hc
    simp [processPart, handleStreamPart, hc]
  · intro b rest hc
    simp [processPart, handleStreamPart, hc]

theorem assistantMessage_first_block_witness :
    (({ id := "am1", role := "assistant", content := [] } :
        AssistantMessageValue).content = [] ∧
     processPart emptyBodyEnv 1 oneMessageState
        (StreamPart.assistantMessage
          { id := "am1", role := "assistant", content := [] }) =
       (oneMessageState,
         some (JsExn.typeError "Cannot read properties of undefined"))) ∧
    (({ id := "am2", role := "assistant", content := [{ textValue := "hi" }] } :
        AssistantMessageValue).content = { textValue := "hi" } :: [] ∧
     processPart emptyBodyEnv 1 oneMessageState
        (StreamPart.assistantMessage
          { id := "am2", role := "assistant", content := [{ textValue := "hi" }] }) =
       ({ oneMessageState with messages := oneMessageState.messages ++
           [{ id := "am2", role := "assistant", content := "hi" }] }, none)) :=
  ⟨⟨rfl,
    (assistantMessage_first_block emptyBodyEnv 1 oneMessageState
      { id := "am1", role := "assistant", content := [] }).1 rfl⟩,
   ⟨rfl,
    (assistantMessage_first_block emptyBodyEnv 1 oneMessageState
      { id := "am2", role := "assistant", content := [{ textValue := "hi" }] }).2
      { textValue := "hi" } [] rfl⟩⟩
